import Mathlib

/-!
# Verification of the sales-dashboard filter/aggregate pipeline

Shallow embedding of `src/app.py`, a Streamlit dashboard over a pandas
DataFrame of synthetic sales orders.  A DataFrame row becomes an
`OrderRecord`; a DataFrame becomes a `List OrderRecord` (order matters, as
it does for pandas).  The integer columns (`OrderID`, `Quantity`,
`CustomerID`) are naturals, the `Date` column (day granularity after
`dt.date`) is a day ordinal, and the float columns (`UnitPrice`,
`TotalPrice`) are modelled as exact rationals.  Pandas `Series.mean`, which
yields the float `NaN` on an empty series, is modelled with an explicit
`PFloat.NaN` constructor.

Embedded operations, in source order:
* `load_data` — `OrderID = range(1, n+1)` and the derived column
  `TotalPrice = Quantity * UnitPrice` (line 17 and 26); the randomly drawn
  columns are an arbitrary `RawRow` list.
* `df_filtered` — `df[(df.Region.isin(regions)) & (df.Category.isin(categories))]`
  (line 52), via elementwise `isin` masks, `&`, and boolean indexing.
* the KPIs `total_sales`, `avg_order_value`, `total_orders` (lines 62-64).
* the groupby/aggregate catalog (lines 77-127): pandas `groupby` with the
  default `sort=True` lists group keys in ascending order and omits keys
  with no matching rows; `Series.nlargest(10)` (default `keep="first"`)
  returns the ten largest entries in descending order, breaking ties by
  order of appearance, i.e. a stable descending sort followed by `take 10`.
-/

/-- One row of the sales DataFrame built by `load_data` in `src/app.py`. -/
structure OrderRecord where
  orderID : Nat
  date : Nat
  region : String
  category : String
  product : String
  quantity : Nat
  unitPrice : ℚ
  customerID : Nat
  totalPrice : ℚ
  deriving DecidableEq, Repr

/-- The randomly generated columns of one row, before `OrderID` and
`TotalPrice` are attached (`load_data`, lines 18-24). -/
structure RawRow where
  date : Nat
  region : String
  category : String
  product : String
  quantity : Nat
  unitPrice : ℚ
  customerID : Nat
  deriving DecidableEq, Repr

/-- Attach `OrderID = i` and the derived column
`TotalPrice = Quantity * UnitPrice` (line 26) to one raw row. -/
def mkOrder (i : Nat) (r : RawRow) : OrderRecord :=
  ⟨i, r.date, r.region, r.category, r.product, r.quantity, r.unitPrice,
    r.customerID, (r.quantity : ℚ) * r.unitPrice⟩

/-- Number the rows sequentially starting from `i`, mirroring
`OrderID = range(1, n_rows + 1)` zipped against the other columns. -/
def numberFrom : Nat → List RawRow → List OrderRecord
  | _, [] => []
  | i, r :: rs => mkOrder i r :: numberFrom (i + 1) rs

/-- `load_data` (lines 12-27): the deterministic part of the dataset
construction — sequential `OrderID`s from 1 and the derived `TotalPrice`
column — over arbitrary drawn columns. -/
def load_data (raws : List RawRow) : List OrderRecord :=
  numberFrom 1 raws

/-- Column extraction `df[c]`. -/
def seriesCol {α : Type} (f : OrderRecord → α) (df : List OrderRecord) : List α :=
  df.map f

/-- Elementwise `Series.isin(sel)`. -/
def seriesIsin {α : Type} [DecidableEq α] (col sel : List α) : List Bool :=
  col.map (fun x => decide (x ∈ sel))

/-- Elementwise `&` on boolean masks. -/
def maskAnd (m₁ m₂ : List Bool) : List Bool :=
  List.zipWith and m₁ m₂

/-- Boolean indexing `df[mask]`: keep the rows whose mask entry is true. -/
def boolIndex : List OrderRecord → List Bool → List OrderRecord
  | [], _ => []
  | _ :: _, [] => []
  | r :: rs, b :: bs => if b then r :: boolIndex rs bs else boolIndex rs bs

/-- Line 52:
`df_filtered = df[(df.Region.isin(regions)) & (df.Category.isin(categories))]`. -/
def df_filtered (df : List OrderRecord) (regions categories : List String) :
    List OrderRecord :=
  boolIndex df
    (maskAnd (seriesIsin (seriesCol OrderRecord.region df) regions)
      (seriesIsin (seriesCol OrderRecord.category df) categories))

/-- A pandas float scalar: either a number or `NaN`. -/
inductive PFloat where
  | NaN : PFloat
  | val : ℚ → PFloat
  deriving DecidableEq, Repr

/-- `Series.sum()`: 0 on an empty series. -/
def seriesSum (xs : List ℚ) : ℚ := xs.sum

/-- `Series.mean()`: the float `NaN` on an empty series, else sum/length. -/
def seriesMean (xs : List ℚ) : PFloat :=
  if xs.length = 0 then PFloat.NaN else PFloat.val (xs.sum / (xs.length : ℚ))

/-- `Series.nunique()`: the number of distinct values. -/
def seriesNunique {α : Type} [DecidableEq α] (xs : List α) : Nat :=
  xs.dedup.length

/-- Line 62: `total_sales = df_filtered['TotalPrice'].sum()`. -/
def total_sales (df : List OrderRecord) (regions categories : List String) : ℚ :=
  seriesSum (seriesCol OrderRecord.totalPrice (df_filtered df regions categories))

/-- Line 63: `avg_order_value = df_filtered['TotalPrice'].mean()`. -/
def avg_order_value (df : List OrderRecord) (regions categories : List String) :
    PFloat :=
  seriesMean (seriesCol OrderRecord.totalPrice (df_filtered df regions categories))

/-- Line 64: `total_orders = df_filtered['OrderID'].nunique()`. -/
def total_orders (df : List OrderRecord) (regions categories : List String) : Nat :=
  seriesNunique (seriesCol OrderRecord.orderID (df_filtered df regions categories))

/-- Helper for `pdUnique`: emit the elements not seen yet. -/
def pdUniqueAux {α : Type} [DecidableEq α] : List α → List α → List α
  | _, [] => []
  | seen, a :: l =>
    if a ∈ seen then pdUniqueAux seen l else a :: pdUniqueAux (a :: seen) l

/-- `df['X'].unique()`: distinct values in order of first appearance; used
for the filter widgets' option lists and defaults (lines 47-48). -/
def pdUnique {α : Type} [DecidableEq α] (l : List α) : List α :=
  pdUniqueAux [] l

/-- `view.groupby(key)[col].sum()` with the pandas default `sort=True`: one
entry per distinct key occurring in `view`, keys listed in `le`-ascending
order, each paired with the sum of `val` over the rows having that key. -/
def groupBySum {κ M : Type} [DecidableEq κ] [AddCommMonoid M]
    (le : κ → κ → Prop) [DecidableRel le]
    (key : OrderRecord → κ) (val : OrderRecord → M)
    (rows : List OrderRecord) : List (κ × M) :=
  (List.insertionSort le (rows.map key).dedup).map
    (fun k => (k, ((rows.filter (fun r => decide (key r = k))).map val).sum))

/-- Lexicographic order on pair keys, as pandas sorts a two-level group key. -/
def lexLe {α β : Type} [LinearOrder α] [LinearOrder β] (a b : α × β) : Prop :=
  a.1 < b.1 ∨ (a.1 = b.1 ∧ a.2 ≤ b.2)

instance {α β : Type} [LinearOrder α] [LinearOrder β] :
    DecidableRel (@lexLe α β _ _) := fun a b => by
  unfold lexLe
  infer_instance

/-- Line 77: `df_filtered.groupby(df_filtered['Date'].dt.date)['TotalPrice'].sum()`. -/
def daily_sales (view : List OrderRecord) : List (Nat × ℚ) :=
  groupBySum (· ≤ ·) OrderRecord.date OrderRecord.totalPrice view

/-- Line 82: `df_filtered.groupby([dt.date, 'Category'])['TotalPrice'].sum()`. -/
def sales_trend_category (view : List OrderRecord) : List ((Nat × String) × ℚ) :=
  groupBySum lexLe (fun o => (o.date, o.category)) OrderRecord.totalPrice view

/-- Line 91: `df_filtered.groupby('Region')['TotalPrice'].sum()`. -/
def sales_by_region (view : List OrderRecord) : List (String × ℚ) :=
  groupBySum (· ≤ ·) OrderRecord.region OrderRecord.totalPrice view

/-- Line 95: `df_filtered.groupby(['Category', 'Region'])['TotalPrice'].sum()`. -/
def sales_by_category_region (view : List OrderRecord) :
    List ((String × String) × ℚ) :=
  groupBySum lexLe (fun o => (o.category, o.region)) OrderRecord.totalPrice view

/-- Line 102: `df_filtered.groupby('Category')['TotalPrice'].sum()`. -/
def sales_by_category (view : List OrderRecord) : List (String × ℚ) :=
  groupBySum (· ≤ ·) OrderRecord.category OrderRecord.totalPrice view

/-- `Series.nlargest(n)` with the default `keep="first"`: the `n` largest
entries in descending order of value, ties broken by order of appearance —
a stable descending sort followed by `take n`. -/
def nlargest {κ M : Type} [LinearOrder M] (n : Nat) (s : List (κ × M)) :
    List (κ × M) :=
  (List.insertionSort (fun a b => b.2 ≤ a.2) s).take n

/-- Line 112: `df_filtered.groupby('Product')['TotalPrice'].sum().nlargest(10)`. -/
def product_sales (view : List OrderRecord) : List (String × ℚ) :=
  nlargest 10 (groupBySum (· ≤ ·) OrderRecord.product OrderRecord.totalPrice view)

/-- Line 116: `df_filtered.groupby('Product')['Quantity'].sum().nlargest(10)`. -/
def quantity_by_product (view : List OrderRecord) : List (String × Nat) :=
  nlargest 10 (groupBySum (· ≤ ·) OrderRecord.product OrderRecord.quantity view)

/-- Lines 124-127: `df_filtered.groupby('CustomerID').agg(TotalSpending,
OrderCount)`: per customer, the sum of `TotalPrice` and the count-distinct
of `OrderID`. -/
def customer_spending (view : List OrderRecord) : List (Nat × ℚ × Nat) :=
  (List.insertionSort (· ≤ ·) (view.map OrderRecord.customerID).dedup).map
    (fun c =>
      (c,
        seriesSum ((view.filter (fun r => decide (r.customerID = c))).map
          OrderRecord.totalPrice),
        seriesNunique ((view.filter (fun r => decide (r.customerID = c))).map
          OrderRecord.orderID)))

/-- Every aggregation result one render pass computes from the filtered
view (lines 62-133).  The unit-price histogram (line 132) is represented by
the raw `UnitPrice` column handed to plotly, which performs the binning. -/
structure AggResults where
  totalSales : ℚ
  avgOrderValue : PFloat
  totalOrders : Nat
  dailySales : List (Nat × ℚ)
  salesTrendCategory : List ((Nat × String) × ℚ)
  salesByRegion : List (String × ℚ)
  salesByCategoryRegion : List ((String × String) × ℚ)
  salesByCategory : List (String × ℚ)
  productSales : List (String × ℚ)
  quantityByProduct : List (String × Nat)
  customerSpending : List (Nat × ℚ × Nat)
  unitPrices : List ℚ
  deriving DecidableEq, Repr

/-- All aggregations of one render pass, as a function of the filtered view. -/
def aggregate (view : List OrderRecord) : AggResults :=
  ⟨seriesSum (seriesCol OrderRecord.totalPrice view),
    seriesMean (seriesCol OrderRecord.totalPrice view),
    seriesNunique (seriesCol OrderRecord.orderID view),
    daily_sales view, sales_trend_category view, sales_by_region view,
    sales_by_category_region view, sales_by_category view, product_sales view,
    quantity_by_product view, customer_spending view,
    seriesCol OrderRecord.unitPrice view⟩

/-- One render pass of the script body (lines 52-133): filter the cached
dataset, run every catalogued aggregation on the view, and return the
results together with the dataset as it stands afterwards.  The only
in-place mutations in the source (`rename(inplace=True)`, lines 78 and 83)
act on per-render derived frames, never on `df`, so the dataset component
is returned untouched. -/
def render_pass (df : List OrderRecord) (regions categories : List String) :
    AggResults × List OrderRecord :=
  (aggregate (df_filtered df regions categories), df)

/-! ## Concrete sample data

A small concrete dataset used to instantiate the universally quantified
theorems below on explicit inputs. -/

/-- Three concrete rows of drawn columns
(`date, region, category, product, quantity, unitPrice, customerID`). -/
def sampleRaws : List RawRow :=
  [⟨0, "North", "Electronics", "Product_1", 1, 100, 100⟩,
   ⟨0, "North", "Electronics", "Product_2", 5, 10, 101⟩,
   ⟨1, "South", "Books", "Product_3", 2, 20, 100⟩]

/-- The dataset built from `sampleRaws`. -/
def sampleDF : List OrderRecord := load_data sampleRaws

/-- The first row of `sampleDF`. -/
def sampleOrder1 : OrderRecord :=
  mkOrder 1 ⟨0, "North", "Electronics", "Product_1", 1, 100, 100⟩

/-- The second row of `sampleDF`. -/
def sampleOrder2 : OrderRecord :=
  mkOrder 2 ⟨0, "North", "Electronics", "Product_2", 5, 10, 101⟩

/-- The third row of `sampleDF`. -/
def sampleOrder3 : OrderRecord :=
  mkOrder 3 ⟨1, "South", "Books", "Product_3", 2, 20, 100⟩

/-- The filtered view of `sampleDF` under a selection covering every row. -/
def sampleView : List OrderRecord := [sampleOrder1, sampleOrder2, sampleOrder3]

/-! ## Basic facts about the filter -/

/-- Boolean indexing by a mask computed pointwise from the rows is `filter`. -/
theorem boolIndex_map (p : OrderRecord → Bool) (df : List OrderRecord) :
    boolIndex df (df.map p) = df.filter p := by
  induction df with
  | nil => rfl
  | cons o rest ih =>
    by_cases h : p o <;> simp [boolIndex, List.filter_cons, h, ih]

/-- The conjunction of the two `isin` masks, computed pointwise. -/
theorem maskAnd_isin (df : List OrderRecord) (regions categories : List String) :
    maskAnd (seriesIsin (seriesCol OrderRecord.region df) regions)
        (seriesIsin (seriesCol OrderRecord.category df) categories)
      = df.map (fun o => decide (o.region ∈ regions ∧ o.category ∈ categories)) := by
  induction df with
  | nil => rfl
  | cons o rest ih =>
    simp only [seriesCol, seriesIsin, maskAnd, List.map_cons,
      List.zipWith_cons_cons] at ih ⊢
    rw [ih, Bool.decide_and]

/-- Boolean-mask filtering over the two `isin` masks equals an ordinary
row filter by the conjunction of the two memberships. -/
theorem df_filtered_eq_filter (df : List OrderRecord)
    (regions categories : List String) :
    df_filtered df regions categories =
      df.filter (fun o => decide (o.region ∈ regions ∧ o.category ∈ categories)) := by
  rw [df_filtered, maskAnd_isin, boolIndex_map]

/-- The filtered view is a sublist of the dataset. -/
theorem df_filtered_sublist (df : List OrderRecord)
    (regions categories : List String) :
    List.Sublist (df_filtered df regions categories) df := by
  rw [df_filtered_eq_filter]
  exact List.filter_sublist df

/-- Membership in the filtered view. -/
theorem mem_df_filtered {df : List OrderRecord} {regions categories : List String}
    {o : OrderRecord} :
    o ∈ df_filtered df regions categories ↔
      o ∈ df ∧ o.region ∈ regions ∧ o.category ∈ categories := by
  rw [df_filtered_eq_filter, List.mem_filter]
  simp

/-- C2: the filter returns exactly the subsequence of records whose region
is in the selected regions AND whose category is in the selected categories
(membership in a selection list is the OR over that dimension); with
Region={North} and Category={Electronics} every record of the view has
region "North" and category "Electronics", and the total-sales KPI is the
sum of `TotalPrice` over exactly those records. -/
theorem filter_conjunction_and_total_sales (df : List OrderRecord)
    (regions categories : List String) :
    df_filtered df regions categories =
      df.filter (fun o => decide (o.region ∈ regions ∧ o.category ∈ categories)) ∧
    (∀ o ∈ df_filtered df ["North"] ["Electronics"],
      o.region = "North" ∧ o.category = "Electronics") ∧
    total_sales df ["North"] ["Electronics"] =
      ((df.filter (fun o =>
          decide (o.region = "North" ∧ o.category = "Electronics"))).map
        OrderRecord.totalPrice).sum := by
  refine ⟨df_filtered_eq_filter df regions categories, ?_, ?_⟩
  · intro o ho
    have h := (mem_df_filtered.mp ho).2
    simpa using h
  · unfold total_sales seriesSum seriesCol
    rw [df_filtered_eq_filter,
      List.filter_congr (fun o _ => by simp :
        ∀ o ∈ df, (decide (o.region ∈ ["North"] ∧ o.category ∈ ["Electronics"]))
          = decide (o.region = "North" ∧ o.category = "Electronics"))]

/-- Witness for C2 at the concrete sample dataset and Region={North},
Category={Electronics}. -/
theorem filter_conjunction_and_total_sales_witness :
    df_filtered sampleDF ["North"] ["Electronics"] =
      sampleDF.filter (fun o =>
        decide (o.region ∈ ["North"] ∧ o.category ∈ ["Electronics"])) ∧
    (∀ o ∈ df_filtered sampleDF ["North"] ["Electronics"],
      o.region = "North" ∧ o.category = "Electronics") ∧
    total_sales sampleDF ["North"] ["Electronics"] =
      ((sampleDF.filter (fun o =>
          decide (o.region = "North" ∧ o.category = "Electronics"))).map
        OrderRecord.totalPrice).sum :=
  filter_conjunction_and_total_sales sampleDF ["North"] ["Electronics"]

/-- C3: for all selections the filtered view is a sublist of the dataset,
and when both selections cover every value observed in the dataset the
view is the dataset itself, so each of the three KPIs equals its value
computed directly over the unfiltered dataset. -/
theorem full_domain_filter_identity (df : List OrderRecord)
    (regions categories : List String)
    (hr : ∀ o ∈ df, o.region ∈ regions) (hc : ∀ o ∈ df, o.category ∈ categories) :
    (∀ rs cs : List String, List.Sublist (df_filtered df rs cs) df) ∧
    df_filtered df regions categories = df ∧
    total_sales df regions categories
      = seriesSum (seriesCol OrderRecord.totalPrice df) ∧
    avg_order_value df regions categories
      = seriesMean (seriesCol OrderRecord.totalPrice df) ∧
    total_orders df regions categories
      = seriesNunique (seriesCol OrderRecord.orderID df) := by
  have heq : df_filtered df regions categories = df := by
    rw [df_filtered_eq_filter]
    apply List.filter_eq_self.mpr
    intro o ho
    simp [hr o ho, hc o ho]
  refine ⟨fun rs cs => df_filtered_sublist df rs cs, heq, ?_, ?_, ?_⟩
  · unfold total_sales
    rw [heq]
  · unfold avg_order_value
    rw [heq]
  · unfold total_orders
    rw [heq]

/-- Witness for C3: the sample dataset with the code's default selections,
`df['Region'].unique()` and `df['Category'].unique()`. -/
theorem full_domain_filter_identity_witness :
    (∀ rs cs : List String, List.Sublist (df_filtered sampleDF rs cs) sampleDF) ∧
    df_filtered sampleDF (pdUnique (sampleDF.map OrderRecord.region))
        (pdUnique (sampleDF.map OrderRecord.category)) = sampleDF ∧
    total_sales sampleDF (pdUnique (sampleDF.map OrderRecord.region))
        (pdUnique (sampleDF.map OrderRecord.category))
      = seriesSum (seriesCol OrderRecord.totalPrice sampleDF) ∧
    avg_order_value sampleDF (pdUnique (sampleDF.map OrderRecord.region))
        (pdUnique (sampleDF.map OrderRecord.category))
      = seriesMean (seriesCol OrderRecord.totalPrice sampleDF) ∧
    total_orders sampleDF (pdUnique (sampleDF.map OrderRecord.region))
        (pdUnique (sampleDF.map OrderRecord.category))
      = seriesNunique (seriesCol OrderRecord.orderID sampleDF) :=
  full_domain_filter_identity sampleDF
    (pdUnique (sampleDF.map OrderRecord.region))
    (pdUnique (sampleDF.map OrderRecord.category))
    (by decide) (by decide)

/-- Every record produced by `numberFrom` satisfies the derived-column
invariant `TotalPrice = Quantity * UnitPrice` set at load time. -/
theorem numberFrom_totalPrice (raws : List RawRow) :
    ∀ i, ∀ o ∈ numberFrom i raws,
      o.totalPrice = (o.quantity : ℚ) * o.unitPrice := by
  induction raws with
  | nil =>
    intro i o ho
    cases ho
  | cons r rs ih =>
    intro i o ho
    rcases List.mem_cons.mp ho with h | h
    · subst h
      rfl
    · exact ih (i + 1) o h

/-- C4: in any filtered view of a loaded dataset, every record's
`TotalPrice` equals `Quantity * UnitPrice`, and the record is literally a
member of the dataset: filtering selects rows and never alters a field. -/
theorem filtered_totalPrice_invariant (raws : List RawRow)
    (regions categories : List String) (o : OrderRecord)
    (ho : o ∈ df_filtered (load_data raws) regions categories) :
    o.totalPrice = (o.quantity : ℚ) * o.unitPrice ∧ o ∈ load_data raws := by
  have hm : o ∈ load_data raws := (mem_df_filtered.mp ho).1
  exact ⟨numberFrom_totalPrice raws 1 o hm, hm⟩

/-- Witness for C4 at the first sample record. -/
theorem filtered_totalPrice_invariant_witness :
    sampleOrder1.totalPrice = (sampleOrder1.quantity : ℚ) * sampleOrder1.unitPrice ∧
      sampleOrder1 ∈ load_data sampleRaws :=
  filtered_totalPrice_invariant sampleRaws ["North"] ["Electronics"] sampleOrder1
    (by
      rw [show df_filtered (load_data sampleRaws) ["North"] ["Electronics"]
          = [sampleOrder1, sampleOrder2] from rfl]
      exact List.mem_cons_self _ _)

/-- C1 counterexample: with an empty region selection the filtered view is
empty, but the average-order-value KPI is the float `NaN` — pandas
`Series.mean` over zero rows — an undefined value, not zero and not an
explicit no-data result. -/
theorem empty_selection_mean_is_nan :
    df_filtered sampleDF [] ["Electronics"] = [] ∧
    avg_order_value sampleDF [] ["Electronics"] = PFloat.NaN ∧
    PFloat.NaN ≠ PFloat.val 0 := by
  refine ⟨rfl, rfl, ?_⟩
  intro h
  exact PFloat.noConfusion h

/-- C1 (amended): an empty selection in either dimension yields a zero-row
view; the total-sales and total-orders KPIs are zero and no error is
raised, but the average-order-value KPI is the float `NaN` (pandas mean of
an empty series), not zero and not an explicit no-data value. -/
theorem empty_selection_kpis (df : List OrderRecord)
    (regions categories : List String) (h : regions = [] ∨ categories = []) :
    df_filtered df regions categories = [] ∧
    total_sales df regions categories = 0 ∧
    total_orders df regions categories = 0 ∧
    avg_order_value df regions categories = PFloat.NaN := by
  have hempty : df_filtered df regions categories = [] := by
    rw [df_filtered_eq_filter, List.filter_eq_nil_iff]
    intro o ho hp
    rw [decide_eq_true_eq] at hp
    rcases h with rfl | rfl
    · exact absurd hp.1 (List.not_mem_nil _)
    · exact absurd hp.2 (List.not_mem_nil _)
  refine ⟨hempty, ?_, ?_, ?_⟩
  · unfold total_sales
    rw [hempty]
    rfl
  · unfold total_orders
    rw [hempty]
    rfl
  · unfold avg_order_value
    rw [hempty]
    rfl

/-- Witness for the amended C1 at the sample dataset with no region selected. -/
theorem empty_selection_kpis_witness :
    df_filtered sampleDF [] ["Electronics"] = [] ∧
    total_sales sampleDF [] ["Electronics"] = 0 ∧
    total_orders sampleDF [] ["Electronics"] = 0 ∧
    avg_order_value sampleDF [] ["Electronics"] = PFloat.NaN :=
  empty_selection_kpis sampleDF [] ["Electronics"] (Or.inl rfl)

/-! ## Summing over groups (C5) -/

/-- Summing an if-indicator over a list not containing the key gives zero. -/
theorem sum_ite_eq_zero {κ M : Type} [DecidableEq κ] [AddCommMonoid M]
    (ks : List κ) (a : κ) (v : M) (ha : a ∉ ks) :
    (ks.map (fun k => if a = k then v else 0)).sum = 0 := by
  induction ks with
  | nil => rfl
  | cons k ks ih =>
    have hk : ¬a = k := by
      intro h
      exact ha (by rw [h]; exact List.mem_cons_self _ _)
    have h2 : a ∉ ks := fun h => ha (List.mem_cons_of_mem _ h)
    rw [List.map_cons, List.sum_cons, if_neg hk, ih h2, add_zero]

/-- Summing an if-indicator over a duplicate-free list containing the key
gives exactly the value. -/
theorem sum_ite_eq_single {κ M : Type} [DecidableEq κ] [AddCommMonoid M]
    (ks : List κ) (a : κ) (v : M) (hnd : ks.Nodup) (ha : a ∈ ks) :
    (ks.map (fun k => if a = k then v else 0)).sum = v := by
  induction ks with
  | nil => cases ha
  | cons k ks ih =>
    rw [List.map_cons, List.sum_cons]
    rcases List.mem_cons.mp ha with rfl | hmem
    · rw [if_pos rfl, sum_ite_eq_zero ks a v (List.nodup_cons.mp hnd).1, add_zero]
    · have hk : ¬a = k := by
        intro h
        rw [h] at hmem
        exact (List.nodup_cons.mp hnd).1 hmem
      rw [if_neg hk, ih (List.nodup_cons.mp hnd).2 hmem, zero_add]

/-- Per-key sums over a duplicate-free key list covering every row add up
to the ungrouped sum. -/
theorem sum_over_groups {κ M : Type} [DecidableEq κ] [AddCommMonoid M]
    (key : OrderRecord → κ) (val : OrderRecord → M) :
    ∀ (rows : List OrderRecord) (ks : List κ), ks.Nodup →
      (∀ r ∈ rows, key r ∈ ks) →
      (ks.map (fun k =>
        ((rows.filter (fun r => decide (key r = k))).map val).sum)).sum
        = (rows.map val).sum := by
  intro rows
  induction rows with
  | nil =>
    intro ks _ _
    simp
  | cons x rest ih =>
    intro ks hnd hcov
    have hsplit : ∀ k : κ,
        ((List.filter (fun r => decide (key r = k)) (x :: rest)).map val).sum
          = (if key x = k then val x else 0)
              + ((List.filter (fun r => decide (key r = k)) rest).map val).sum := by
      intro k
      rw [List.filter_cons]
      by_cases h : key x = k
      · simp [h]
      · simp [h]
    rw [List.map_congr_left (fun k _ => hsplit k), List.sum_map_add,
      sum_ite_eq_single ks (key x) (val x) hnd (hcov x (List.mem_cons_self _ _)),
      ih ks hnd (fun r hr => hcov r (List.mem_cons_of_mem _ hr)),
      List.map_cons, List.sum_cons]

/-- C5: the per-category sales sums of the category aggregation add up to
the overall total-sales KPI on the same filtered view. -/
theorem category_sums_add_to_total (df : List OrderRecord)
    (regions categories : List String) :
    ((sales_by_category (df_filtered df regions categories)).map Prod.snd).sum
      = total_sales df regions categories := by
  unfold sales_by_category groupBySum total_sales seriesSum seriesCol
  rw [List.map_map]
  apply sum_over_groups
  · exact ((List.perm_insertionSort _ _).nodup_iff).mpr (List.nodup_dedup _)
  · intro r hr
    rw [List.mem_insertionSort, List.mem_dedup]
    exact List.mem_map_of_mem _ hr

/-! ## Group keys (C8), determinism (C7), order count (C9) -/

/-- The keys of a `groupBySum` result are exactly the key values occurring
among the rows. -/
theorem mem_groupBySum_keys {κ M : Type} [DecidableEq κ] [AddCommMonoid M]
    (le : κ → κ → Prop) [DecidableRel le] (key : OrderRecord → κ)
    (val : OrderRecord → M) (rows : List OrderRecord) (k : κ) :
    k ∈ (groupBySum le key val rows).map Prod.fst ↔ ∃ r ∈ rows, key r = k := by
  unfold groupBySum
  rw [List.map_map]
  constructor
  · intro hk
    rcases List.mem_map.mp hk with ⟨k0, hk0, rfl⟩
    have hmem : k0 ∈ rows.map key :=
      List.mem_dedup.mp ((List.mem_insertionSort le).mp hk0)
    rcases List.mem_map.mp hmem with ⟨r, hr, hkey⟩
    exact ⟨r, hr, hkey⟩
  · rintro ⟨r, hr, rfl⟩
    refine List.mem_map.mpr ⟨key r, ?_, rfl⟩
    rw [List.mem_insertionSort, List.mem_dedup]
    exact List.mem_map_of_mem _ hr

/-- The key column of a `groupBySum` result is duplicate-free: at most one
entry per key. -/
theorem groupBySum_keys_nodup {κ M : Type} [DecidableEq κ] [AddCommMonoid M]
    (le : κ → κ → Prop) [DecidableRel le] (key : OrderRecord → κ)
    (val : OrderRecord → M) (rows : List OrderRecord) :
    ((groupBySum le key val rows).map Prod.fst).Nodup := by
  unfold groupBySum
  rw [List.map_map]
  have h1 : (List.insertionSort le (rows.map key).dedup).Nodup :=
    ((List.perm_insertionSort _ _).nodup_iff).mpr (List.nodup_dedup _)
  exact List.Nodup.map (fun a b h => h) h1

/-- C8: the region aggregation has exactly one entry per region occurring
in the filtered view — its key column is duplicate-free and a region is a
key precisely when some row of the view has it, so absent regions are
omitted, not reported as zero — and likewise the (date, category)
aggregation has exactly one entry per (date, category) pair occurring in
the view: a category with no rows on a date is absent from that date, not
zero-filled. -/
theorem aggregations_omit_empty_groups (df : List OrderRecord)
    (regions categories : List String) :
    ((sales_by_region (df_filtered df regions categories)).map Prod.fst).Nodup ∧
    (∀ reg : String,
      reg ∈ (sales_by_region (df_filtered df regions categories)).map Prod.fst ↔
        ∃ o ∈ df_filtered df regions categories, o.region = reg) ∧
    ((sales_trend_category (df_filtered df regions categories)).map
      Prod.fst).Nodup ∧
    (∀ (d : Nat) (c : String),
      (d, c) ∈
          (sales_trend_category (df_filtered df regions categories)).map Prod.fst ↔
        ∃ o ∈ df_filtered df regions categories, o.date = d ∧ o.category = c) := by
  refine ⟨groupBySum_keys_nodup _ _ _ _, ?_, groupBySum_keys_nodup _ _ _ _, ?_⟩
  · intro reg
    exact mem_groupBySum_keys _ _ _ _ reg
  · intro d c
    rw [sales_trend_category, mem_groupBySum_keys]
    constructor
    · rintro ⟨o, ho, hoe⟩
      rw [Prod.mk.injEq] at hoe
      exact ⟨o, ho, hoe⟩
    · rintro ⟨o, ho, hd, hc⟩
      exact ⟨o, ho, by rw [hd, hc]⟩

/-- C7: a render pass returns the dataset unchanged; re-running the whole
pipeline on that state with the same selections produces identical
aggregation results; and the results are a pure function of the filtered
view alone — no other state is read. -/
theorem render_pass_deterministic (df : List OrderRecord)
    (regions categories : List String) :
    (render_pass df regions categories).2 = df ∧
    (render_pass (render_pass df regions categories).2 regions categories).1
      = (render_pass df regions categories).1 ∧
    ∀ df₂ : List OrderRecord,
      df_filtered df₂ regions categories = df_filtered df regions categories →
        (render_pass df₂ regions categories).1
          = (render_pass df regions categories).1 := by
  refine ⟨rfl, rfl, ?_⟩
  intro df₂ h
  unfold render_pass
  rw [h]

/-- Witness for C7 at the sample dataset. -/
theorem render_pass_deterministic_witness :
    (render_pass sampleDF ["North"] ["Electronics"]).2 = sampleDF ∧
    (render_pass (render_pass sampleDF ["North"] ["Electronics"]).2 ["North"]
        ["Electronics"]).1
      = (render_pass sampleDF ["North"] ["Electronics"]).1 ∧
    ∀ df₂ : List OrderRecord,
      df_filtered df₂ ["North"] ["Electronics"]
          = df_filtered sampleDF ["North"] ["Electronics"] →
        (render_pass df₂ ["North"] ["Electronics"]).1
          = (render_pass sampleDF ["North"] ["Electronics"]).1 :=
  render_pass_deterministic sampleDF ["North"] ["Electronics"]

/-- The OrderID column of `numberFrom i raws` is `range' i raws.length`. -/
theorem numberFrom_orderIDs (raws : List RawRow) :
    ∀ i, (numberFrom i raws).map OrderRecord.orderID
      = List.range' i raws.length := by
  induction raws with
  | nil =>
    intro i
    rfl
  | cons r rs ih =>
    intro i
    rw [List.length_cons, List.range'_succ]
    simp only [numberFrom, List.map_cons, mkOrder]
    rw [ih (i + 1)]

/-- C9: the Total Orders KPI — count-distinct of `OrderID` over the
filtered view — equals the number of rows of the filtered view, because
`load_data` generates one unique sequential `OrderID` per row; on an empty
view both sides are zero. -/
theorem total_orders_eq_row_count (raws : List RawRow)
    (regions categories : List String) :
    total_orders (load_data raws) regions categories
      = (df_filtered (load_data raws) regions categories).length := by
  unfold total_orders seriesNunique seriesCol
  have hnodup : ((load_data raws).map OrderRecord.orderID).Nodup := by
    rw [load_data, numberFrom_orderIDs raws 1]
    exact List.nodup_range' 1 raws.length 1 (by norm_num)
  have hview : ((df_filtered (load_data raws) regions categories).map
      OrderRecord.orderID).Nodup :=
    List.Nodup.sublist ((df_filtered_sublist _ _ _).map _) hnodup
  rw [List.Nodup.dedup hview, List.length_map]

/-! ## Top-10 rankings (C6, C10) -/

/-- The stable descending sort underlying `nlargest` yields a list sorted
by descending value. -/
theorem sorted_insertionSort_desc {κ M : Type} [LinearOrder M]
    (s : List (κ × M)) :
    List.Sorted (fun a b : κ × M => b.2 ≤ a.2)
      (List.insertionSort (fun a b : κ × M => b.2 ≤ a.2) s) := by
  haveI ht : IsTotal (κ × M) (fun a b : κ × M => b.2 ≤ a.2) :=
    ⟨fun a b => le_total b.2 a.2⟩
  haveI htr : IsTrans (κ × M) (fun a b : κ × M => b.2 ≤ a.2) :=
    ⟨fun a b c h₁ h₂ => le_trans h₂ h₁⟩
  exact List.sorted_insertionSort _ s

/-- `nlargest` output is sorted by descending value. -/
theorem nlargest_sorted {κ M : Type} [LinearOrder M] (n : Nat)
    (s : List (κ × M)) :
    (nlargest n s).Pairwise (fun a b : κ × M => b.2 ≤ a.2) :=
  List.Pairwise.sublist (List.take_sublist _ _) (sorted_insertionSort_desc s)

/-- `nlargest` returns `min n` of the number of entries. -/
theorem nlargest_length {κ M : Type} [LinearOrder M] (n : Nat)
    (s : List (κ × M)) :
    (nlargest n s).length = min n s.length := by
  unfold nlargest
  rw [List.length_take, List.length_insertionSort]

/-- Every `nlargest` entry is an entry of the input. -/
theorem nlargest_mem {κ M : Type} [LinearOrder M] (n : Nat)
    (s : List (κ × M)) (p : κ × M) (hp : p ∈ nlargest n s) : p ∈ s := by
  unfold nlargest at hp
  exact (List.mem_insertionSort _).mp (List.mem_of_mem_take hp)

/-- Cut property of `nlargest`: every kept entry has value at least that
of every dropped entry. -/
theorem nlargest_cut {κ M : Type} [LinearOrder M] (n : Nat)
    (s : List (κ × M)) (p : κ × M) (hp : p ∈ nlargest n s) (q : κ × M)
    (hq : q ∈ s) (hq2 : q ∉ nlargest n s) : q.2 ≤ p.2 := by
  have hsorted := sorted_insertionSort_desc s
  set t := List.insertionSort (fun a b : κ × M => b.2 ≤ a.2) s with ht
  have hqt : q ∈ t := by
    rw [ht, List.mem_insertionSort]
    exact hq
  have hsplit : t = t.take n ++ t.drop n := (List.take_append_drop n t).symm
  have hdrop : q ∈ t.drop n := by
    rcases List.mem_append.mp (hsplit ▸ hqt) with h | h
    · exact absurd h hq2
    · exact h
  have hpt : p ∈ t.take n := hp
  have hpa := List.pairwise_append.mp (hsplit ▸ hsorted)
  exact hpa.2.2 p hpt q hdrop

/-- Inserting an entry whose key precedes every key of a value-descending,
key-ascending-on-ties list preserves that invariant (stability of
`orderedInsert` plus the tie-break). -/
theorem pairwise_orderedInsert_stable {κ M : Type} [LinearOrder κ]
    [LinearOrder M] (a : κ × M) :
    ∀ m : List (κ × M),
      List.Sorted (fun x y : κ × M => y.2 ≤ x.2) m →
      m.Pairwise (fun x y : κ × M => y.2 < x.2 ∨ (x.2 = y.2 ∧ x.1 < y.1)) →
      (∀ b ∈ m, a.1 < b.1) →
      (List.orderedInsert (fun x y : κ × M => y.2 ≤ x.2) a m).Pairwise
        (fun x y : κ × M => y.2 < x.2 ∨ (x.2 = y.2 ∧ x.1 < y.1)) := by
  intro m
  induction m with
  | nil =>
    intro _ _ _
    simp
  | cons b m ih =>
    intro hsorted hpair hkey
    simp only [List.orderedInsert]
    split_ifs with h
    · refine List.pairwise_cons.mpr ⟨?_, hpair⟩
      intro c hc
      rcases List.mem_cons.mp hc with rfl | hcm
      · rcases lt_or_eq_of_le h with hlt | heq
        · exact Or.inl hlt
        · exact Or.inr ⟨heq.symm, hkey c (List.mem_cons_self _ _)⟩
      · have hcb : c.2 ≤ b.2 := List.rel_of_sorted_cons hsorted c hcm
        have hca : c.2 ≤ a.2 := le_trans hcb h
        rcases lt_or_eq_of_le hca with hlt | heq
        · exact Or.inl hlt
        · exact Or.inr ⟨heq.symm, hkey c (List.mem_cons_of_mem _ hcm)⟩
    · have hba : a.2 < b.2 := not_le.mp h
      refine List.pairwise_cons.mpr ⟨?_, ?_⟩
      · intro c hc
        rcases (List.mem_orderedInsert _).mp hc with rfl | hcm
        · exact Or.inl hba
        · exact (List.pairwise_cons.mp hpair).1 c hcm
      · exact ih (List.sorted_cons.mp hsorted).2 (List.pairwise_cons.mp hpair).2
          (fun c hc => hkey c (List.mem_cons_of_mem _ hc))

/-- Stability of the descending-value insertion sort: starting from a list
with strictly ascending keys, the sorted output is value-descending with
ties broken by ascending key. -/
theorem pairwise_insertionSort_stable {κ M : Type} [LinearOrder κ]
    [LinearOrder M] :
    ∀ l : List (κ × M), l.Pairwise (fun x y : κ × M => x.1 < y.1) →
      (List.insertionSort (fun x y : κ × M => y.2 ≤ x.2) l).Pairwise
        (fun x y : κ × M => y.2 < x.2 ∨ (x.2 = y.2 ∧ x.1 < y.1)) := by
  intro l
  induction l with
  | nil =>
    intro _
    simp
  | cons a l ih =>
    intro hp
    simp only [List.insertionSort]
    exact pairwise_orderedInsert_stable a _
      (sorted_insertionSort_desc l)
      (ih (List.pairwise_cons.mp hp).2)
      (fun b hb =>
        (List.pairwise_cons.mp hp).1 b ((List.mem_insertionSort _).mp hb))

/-- A `groupBySum` over a linearly ordered key with the ascending order has
strictly ascending keys: pandas `groupby(sort=True)` emits one entry per
distinct key, sorted. -/
theorem groupBySum_keys_ascending {κ M : Type} [LinearOrder κ]
    [DecidableEq κ] [DecidableRel (fun a b : κ => a ≤ b)]
    [AddCommMonoid M] (key : OrderRecord → κ) (val : OrderRecord → M)
    (rows : List OrderRecord) :
    (groupBySum (· ≤ ·) key val rows).Pairwise
      (fun x y : κ × M => x.1 < y.1) := by
  unfold groupBySum
  rw [List.pairwise_map]
  have hsorted : List.Sorted (· ≤ ·)
      (List.insertionSort (· ≤ ·) ((rows.map key).dedup)) :=
    List.sorted_insertionSort _ _
  have hnodup : (List.insertionSort (· ≤ ·) ((rows.map key).dedup)).Nodup :=
    ((List.perm_insertionSort _ _).nodup_iff).mpr (List.nodup_dedup _)
  exact (hsorted.and hnodup).imp (fun h => lt_of_le_of_ne h.1 h.2)

/-- The distinct products of `sampleView`, in order. -/
theorem sampleView_product_dedup :
    (sampleView.map OrderRecord.product).dedup
      = ["Product_1", "Product_2", "Product_3"] := by
  decide

/-- The distinct products of `sampleView` are already in ascending order. -/
theorem sampleView_product_sorted :
    List.Sorted (· ≤ ·) ["Product_1", "Product_2", "Product_3"] := by
  have h12 : ("Product_1" : String) ≤ "Product_2" := by
    rw [String.le_iff_toList_le]
    decide
  have h13 : ("Product_1" : String) ≤ "Product_3" := by
    rw [String.le_iff_toList_le]
    decide
  have h23 : ("Product_2" : String) ≤ "Product_3" := by
    rw [String.le_iff_toList_le]
    decide
  refine List.sorted_cons.mpr ⟨?_, List.sorted_cons.mpr ⟨?_,
    List.sorted_singleton _⟩⟩
  · intro b hb
    rcases List.mem_cons.mp hb with rfl | hb
    · exact h12
    · rcases List.mem_cons.mp hb with rfl | hb
      · exact h13
      · cases hb
  · intro b hb
    rcases List.mem_cons.mp hb with rfl | hb
    · exact h23
    · cases hb

/-- Top-10 products by sales value on the sample view, evaluated. -/
theorem product_sales_sampleView :
    product_sales sampleView
      = [("Product_1", (100 : ℚ)), ("Product_2", 50), ("Product_3", 40)] := by
  have h1 : ((sampleView.filter (fun r => decide (r.product = "Product_1"))).map
      OrderRecord.totalPrice).sum = (100 : ℚ) := by
    rw [show (sampleView.filter (fun r => decide (r.product = "Product_1"))).map
        OrderRecord.totalPrice = [((1 : ℕ) : ℚ) * 100] from rfl]
    norm_num
  have h2 : ((sampleView.filter (fun r => decide (r.product = "Product_2"))).map
      OrderRecord.totalPrice).sum = (50 : ℚ) := by
    rw [show (sampleView.filter (fun r => decide (r.product = "Product_2"))).map
        OrderRecord.totalPrice = [((5 : ℕ) : ℚ) * 10] from rfl]
    norm_num
  have h3 : ((sampleView.filter (fun r => decide (r.product = "Product_3"))).map
      OrderRecord.totalPrice).sum = (40 : ℚ) := by
    rw [show (sampleView.filter (fun r => decide (r.product = "Product_3"))).map
        OrderRecord.totalPrice = [((2 : ℕ) : ℚ) * 20] from rfl]
    norm_num
  unfold product_sales nlargest groupBySum
  rw [sampleView_product_dedup,
    List.Sorted.insertionSort_eq sampleView_product_sorted]
  simp only [List.map_cons, List.map_nil, h1, h2, h3]
  have hsd : List.Sorted (fun a b : String × ℚ => b.2 ≤ a.2)
      [("Product_1", (100 : ℚ)), ("Product_2", 50), ("Product_3", 40)] := by
    refine List.sorted_cons.mpr ⟨?_, List.sorted_cons.mpr ⟨?_,
      List.sorted_singleton _⟩⟩
    · intro b hb
      rcases List.mem_cons.mp hb with rfl | hb
      · norm_num
      · rcases List.mem_cons.mp hb with rfl | hb
        · norm_num
        · cases hb
    · intro b hb
      rcases List.mem_cons.mp hb with rfl | hb
      · norm_num
      · cases hb
  rw [List.Sorted.insertionSort_eq hsd]
  rfl

/-- Top-10 products by quantity on the sample view, evaluated. -/
theorem quantity_by_product_sampleView :
    quantity_by_product sampleView
      = [("Product_2", 5), ("Product_3", 2), ("Product_1", 1)] := by
  unfold quantity_by_product nlargest groupBySum
  rw [sampleView_product_dedup,
    List.Sorted.insertionSort_eq sampleView_product_sorted]
  decide

/-- C6: each top-10 product list keeps `min 10 n` of the `n` product
groups, lists them in descending order of the aggregated value, keeps only
true (product, aggregate) groups, every kept entry dominates every dropped
group, and the two rankings are computed independently: on the sample view
they differ in order. -/
theorem top10_product_rankings (df : List OrderRecord)
    (regions categories : List String) :
    (product_sales (df_filtered df regions categories)).length
      = min 10 (groupBySum (· ≤ ·) OrderRecord.product OrderRecord.totalPrice
          (df_filtered df regions categories)).length ∧
    (quantity_by_product (df_filtered df regions categories)).length
      = min 10 (groupBySum (· ≤ ·) OrderRecord.product OrderRecord.quantity
          (df_filtered df regions categories)).length ∧
    (product_sales (df_filtered df regions categories)).Pairwise
      (fun a b => b.2 ≤ a.2) ∧
    (quantity_by_product (df_filtered df regions categories)).Pairwise
      (fun a b => b.2 ≤ a.2) ∧
    (∀ p ∈ product_sales (df_filtered df regions categories),
      p ∈ groupBySum (· ≤ ·) OrderRecord.product OrderRecord.totalPrice
        (df_filtered df regions categories)) ∧
    (∀ p ∈ quantity_by_product (df_filtered df regions categories),
      p ∈ groupBySum (· ≤ ·) OrderRecord.product OrderRecord.quantity
        (df_filtered df regions categories)) ∧
    (∀ p ∈ product_sales (df_filtered df regions categories),
      ∀ q ∈ groupBySum (· ≤ ·) OrderRecord.product OrderRecord.totalPrice
        (df_filtered df regions categories),
        q ∉ product_sales (df_filtered df regions categories) → q.2 ≤ p.2) ∧
    (∀ p ∈ quantity_by_product (df_filtered df regions categories),
      ∀ q ∈ groupBySum (· ≤ ·) OrderRecord.product OrderRecord.quantity
        (df_filtered df regions categories),
        q ∉ quantity_by_product (df_filtered df regions categories) →
          q.2 ≤ p.2) ∧
    (product_sales sampleView).map Prod.fst
      ≠ (quantity_by_product sampleView).map Prod.fst := by
  refine ⟨nlargest_length 10 _, nlargest_length 10 _, nlargest_sorted 10 _,
    nlargest_sorted 10 _, fun p hp => nlargest_mem 10 _ p hp,
    fun p hp => nlargest_mem 10 _ p hp,
    fun p hp q hq hq2 => nlargest_cut 10 _ p hp q hq hq2,
    fun p hp q hq hq2 => nlargest_cut 10 _ p hp q hq hq2, ?_⟩
  rw [product_sales_sampleView, quantity_by_product_sampleView]
  decide

/-- Witness for C6 at the sample dataset, with every row selected. -/
theorem top10_product_rankings_witness :
    (product_sales (df_filtered sampleDF ["North", "South"]
        ["Electronics", "Books"])).length
      = min 10 (groupBySum (· ≤ ·) OrderRecord.product OrderRecord.totalPrice
          (df_filtered sampleDF ["North", "South"]
            ["Electronics", "Books"])).length ∧
    (quantity_by_product (df_filtered sampleDF ["North", "South"]
        ["Electronics", "Books"])).length
      = min 10 (groupBySum (· ≤ ·) OrderRecord.product OrderRecord.quantity
          (df_filtered sampleDF ["North", "South"]
            ["Electronics", "Books"])).length ∧
    (product_sales (df_filtered sampleDF ["North", "South"]
        ["Electronics", "Books"])).Pairwise (fun a b => b.2 ≤ a.2) ∧
    (quantity_by_product (df_filtered sampleDF ["North", "South"]
        ["Electronics", "Books"])).Pairwise (fun a b => b.2 ≤ a.2) ∧
    (∀ p ∈ product_sales (df_filtered sampleDF ["North", "South"]
        ["Electronics", "Books"]),
      p ∈ groupBySum (· ≤ ·) OrderRecord.product OrderRecord.totalPrice
        (df_filtered sampleDF ["North", "South"] ["Electronics", "Books"])) ∧
    (∀ p ∈ quantity_by_product (df_filtered sampleDF ["North", "South"]
        ["Electronics", "Books"]),
      p ∈ groupBySum (· ≤ ·) OrderRecord.product OrderRecord.quantity
        (df_filtered sampleDF ["North", "South"] ["Electronics", "Books"])) ∧
    (∀ p ∈ product_sales (df_filtered sampleDF ["North", "South"]
        ["Electronics", "Books"]),
      ∀ q ∈ groupBySum (· ≤ ·) OrderRecord.product OrderRecord.totalPrice
        (df_filtered sampleDF ["North", "South"] ["Electronics", "Books"]),
        q ∉ product_sales (df_filtered sampleDF ["North", "South"]
          ["Electronics", "Books"]) → q.2 ≤ p.2) ∧
    (∀ p ∈ quantity_by_product (df_filtered sampleDF ["North", "South"]
        ["Electronics", "Books"]),
      ∀ q ∈ groupBySum (· ≤ ·) OrderRecord.product OrderRecord.quantity
        (df_filtered sampleDF ["North", "South"] ["Electronics", "Books"]),
        q ∉ quantity_by_product (df_filtered sampleDF ["North", "South"]
          ["Electronics", "Books"]) → q.2 ≤ p.2) ∧
    (product_sales sampleView).map Prod.fst
      ≠ (quantity_by_product sampleView).map Prod.fst :=
  top10_product_rankings sampleDF ["North", "South"] ["Electronics", "Books"]

/-- C10: product groups are emitted with strictly ascending product names
(pandas `groupby(sort=True)`), and since `nlargest` keeps first
occurrences among ties, both top-10 lists are value-descending with ties
broken by the alphabetically earlier product name first. -/
theorem top10_tie_break_deterministic (df : List OrderRecord)
    (regions categories : List String) :
    ((groupBySum (· ≤ ·) OrderRecord.product OrderRecord.totalPrice
        (df_filtered df regions categories)).Pairwise
      (fun x y => x.1 < y.1)) ∧
    ((groupBySum (· ≤ ·) OrderRecord.product OrderRecord.quantity
        (df_filtered df regions categories)).Pairwise
      (fun x y => x.1 < y.1)) ∧
    ((product_sales (df_filtered df regions categories)).Pairwise
      (fun x y => y.2 < x.2 ∨ (x.2 = y.2 ∧ x.1 < y.1))) ∧
    ((quantity_by_product (df_filtered df regions categories)).Pairwise
      (fun x y => y.2 < x.2 ∨ (x.2 = y.2 ∧ x.1 < y.1))) := by
  refine ⟨groupBySum_keys_ascending _ _ _, groupBySum_keys_ascending _ _ _,
    ?_, ?_⟩
  · unfold product_sales nlargest
    exact List.Pairwise.sublist (List.take_sublist _ _)
      (pairwise_insertionSort_stable _ (groupBySum_keys_ascending _ _ _))
  · unfold quantity_by_product nlargest
    exact List.Pairwise.sublist (List.take_sublist _ _)
      (pairwise_insertionSort_stable _ (groupBySum_keys_ascending _ _ _))

/-- Witness for C10 at the sample dataset, with every row selected. -/
theorem top10_tie_break_deterministic_witness :
    ((groupBySum (· ≤ ·) OrderRecord.product OrderRecord.totalPrice
        (df_filtered sampleDF ["North", "South"]
          ["Electronics", "Books"])).Pairwise
      (fun x y => x.1 < y.1)) ∧
    ((groupBySum (· ≤ ·) OrderRecord.product OrderRecord.quantity
        (df_filtered sampleDF ["North", "South"]
          ["Electronics", "Books"])).Pairwise
      (fun x y => x.1 < y.1)) ∧
    ((product_sales (df_filtered sampleDF ["North", "South"]
        ["Electronics", "Books"])).Pairwise
      (fun x y => y.2 < x.2 ∨ (x.2 = y.2 ∧ x.1 < y.1))) ∧
    ((quantity_by_product (df_filtered sampleDF ["North", "South"]
        ["Electronics", "Books"])).Pairwise
      (fun x y => y.2 < x.2 ∨ (x.2 = y.2 ∧ x.1 < y.1))) :=
  top10_tie_break_deterministic sampleDF ["North", "South"]
    ["Electronics", "Books"]

/-- Witness for C5 at the sample dataset, with every row selected. -/
theorem category_sums_add_to_total_witness :
    ((sales_by_category (df_filtered sampleDF ["North", "South"]
        ["Electronics", "Books"])).map Prod.snd).sum
      = total_sales sampleDF ["North", "South"] ["Electronics", "Books"] :=
  category_sums_add_to_total sampleDF ["North", "South"] ["Electronics", "Books"]

/-- Witness for C8 at the sample dataset, with every row selected. -/
theorem aggregations_omit_empty_groups_witness :
    ((sales_by_region (df_filtered sampleDF ["North", "South"]
        ["Electronics", "Books"])).map Prod.fst).Nodup ∧
    (∀ reg : String,
      reg ∈ (sales_by_region (df_filtered sampleDF ["North", "South"]
          ["Electronics", "Books"])).map Prod.fst ↔
        ∃ o ∈ df_filtered sampleDF ["North", "South"] ["Electronics", "Books"],
          o.region = reg) ∧
    ((sales_trend_category (df_filtered sampleDF ["North", "South"]
        ["Electronics", "Books"])).map Prod.fst).Nodup ∧
    (∀ (d : Nat) (c : String),
      (d, c) ∈ (sales_trend_category (df_filtered sampleDF ["North", "South"]
          ["Electronics", "Books"])).map Prod.fst ↔
        ∃ o ∈ df_filtered sampleDF ["North", "South"] ["Electronics", "Books"],
          o.date = d ∧ o.category = c) :=
  aggregations_omit_empty_groups sampleDF ["North", "South"]
    ["Electronics", "Books"]

/-- Witness for C9 at the sample dataset, with every row selected. -/
theorem total_orders_eq_row_count_witness :
    total_orders (load_data sampleRaws) ["North", "South"]
        ["Electronics", "Books"]
      = (df_filtered (load_data sampleRaws) ["North", "South"]
          ["Electronics", "Books"]).length :=
  total_orders_eq_row_count sampleRaws ["North", "South"]
    ["Electronics", "Books"]
